import Mathlib

/-
Verification development for the minimal GLB (binary glTF 2.0) loader in
src/GLTFLoader.js.  The JavaScript loader is shallowly embedded: byte buffers
(ArrayBuffer) become lists of naturals below 256, the parsed JSON metadata
document becomes the structure Doc, JavaScript numbers become rationals, and
thrown exceptions become an explicit error type threaded through Except.
Calls to console.warn become an explicit warning list.  Two pieces of the
JavaScript runtime that the loader merely invokes are abstracted as
parameters: JSON.parse composed with reading the resulting object into the
Doc shape is a parameter jdec, and the IEEE-754 reinterpretation performed by
Float32Array is a parameter f32 giving the rational value of four
little-endian bytes.  Browser-side texture machinery (Blob, URL
createObjectURL, the texture loader and sampler configuration) only wraps
collaborator objects, so images and textures are modelled at the level of
which entries exist and which bytes or URI they carry.
-/

deriving instance DecidableEq for Except

namespace GLTF

/-- Errors thrown by the loader.  The source throws plain Error objects with
messages plus builtin RangeError, SyntaxError and TypeError; each throw site
is mapped to one constructor here.  The specification names map as follows:
MalformedContainer covers notGLB, badVersion, missingJsonChunk and
badJsonChunk; OutOfRange corresponds to rangeError; UnsupportedBuffer to
singleBinOnly; UnsupportedComponentType and UnsupportedElementType to
badComponentType and badAccessorType. -/
inductive JsErr where
  | rangeError
  | badJsonChunk
  | typeError
  | notGLB
  | badVersion
  | missingJsonChunk
  | singleBinOnly
  | badComponentType
  | badAccessorType
  deriving DecidableEq, Repr

/-- Diagnostics emitted through console.warn. -/
inductive Warning where
  | lengthMismatch
  | primModeSkipped
  | primMissingPosition
  deriving DecidableEq, Repr

/-- Value found in a JSON color-factor array.  num q is a JSON number.
other t truthy nullish is any non-number JSON value: t is the result of the
JavaScript ToNumber coercion applied to it (none standing for NaN), truthy is
its boolean coercion, and nullish is true exactly for null.  Examples: the
string "2" is other (some 2) true false, the string "x" is
other none true false, true is other (some 1) true false, null is
other (some 0) false true, the empty string is other (some 0) false false. -/
inductive JChan where
  | num (q : ℚ)
  | other (toNumber : Option ℚ) (truthy : Bool) (nullish : Bool)
  deriving DecidableEq, Repr

structure BufferViewDef where
  buffer : ℕ
  byteOffset : Option ℕ
  byteLength : Option ℕ
  deriving DecidableEq, Repr

structure AccessorDef where
  bufferView : Option ℕ
  byteOffset : Option ℕ
  componentType : ℕ
  type : String
  count : ℕ
  normalized : Bool
  deriving DecidableEq, Repr

structure AttrsDef where
  POSITION : Option ℕ
  NORMAL : Option ℕ
  COLOR_0 : Option ℕ
  deriving DecidableEq, Repr

structure PrimitiveDef where
  attributes : Option AttrsDef
  mode : Option ℕ
  indices : Option ℕ
  material : Option ℕ
  deriving DecidableEq, Repr

structure MeshDef where
  name : Option String
  primitives : List PrimitiveDef
  deriving DecidableEq, Repr

structure TexRef where
  index : Option ℕ
  deriving DecidableEq, Repr

structure Pbr where
  baseColorFactor : Option (List JChan)
  baseColorTexture : Option TexRef
  metallicFactor : Option ℚ
  roughnessFactor : Option ℚ
  deriving DecidableEq, Repr

structure MaterialDef where
  pbrMetallicRoughness : Option Pbr
  emissiveFactor : Option (List JChan)
  doubleSided : Bool
  alphaMode : Option String
  deriving DecidableEq, Repr

structure ImageDef where
  bufferView : Option ℕ
  uri : Option String
  deriving DecidableEq, Repr

structure TextureDef where
  source : Option ℕ
  deriving DecidableEq, Repr

structure NodeDef where
  name : Option String
  mesh : Option ℕ
  children : List ℕ
  translation : Option (List ℚ)
  rotation : Option (List ℚ)
  scale : Option (List ℚ)
  deriving DecidableEq, Repr

structure SceneDef where
  nodes : List ℕ
  deriving DecidableEq, Repr

/-- Parsed JSON metadata document, restricted to the fields the loader reads.
Buffer descriptors carry no field the loader ever reads, so they are units;
absent arrays are the empty list where the loader defaults them with
a truthiness guard or an or-empty pattern, matching the observable behavior. -/
structure Doc where
  buffers : List Unit
  bufferViews : List BufferViewDef
  accessors : List AccessorDef
  meshes : List MeshDef
  materials : List MaterialDef
  images : List ImageDef
  textures : List TextureDef
  nodes : List NodeDef
  scenes : List SceneDef
  scene : Option ℕ
  deriving DecidableEq, Repr

def emptyDoc : Doc := ⟨[], [], [], [], [], [], [], [], [], none⟩

/-- DataView getUint32 with littleEndian true: reads four bytes, failing with
a RangeError (modelled as none) when the read crosses the end of the buffer. -/
def getUint32 (bytes : List ℕ) (o : ℕ) : Option ℕ :=
  if o + 4 ≤ bytes.length then
    some (bytes.getD o 0 + 256 * bytes.getD (o + 1) 0 + 65536 * bytes.getD (o + 2) 0
      + 16777216 * bytes.getD (o + 3) 0)
  else none

def jsonChunkTag : ℕ := 0x4E4F534A

def binChunkTag : ℕ := 0x004E4942

/-- Chunk-scanning loop of parse (lines 38 to 48 of the source).  The loop
variable offset advances by 8 plus the declared chunk length each round and
runs while offset is below the declared total length.  The slice of the chunk
data clamps to the actual buffer, exactly as ArrayBuffer slice does.  The
fuel argument only bounds the recursion depth structurally; every iteration
advances offset by at least 8, so any fuel of at least the declared length
plus one can never run out, and the fuel-zero branch is chosen to coincide
with normal loop exit. -/
def chunkGo (jdec : List ℕ → Option Doc) (bytes : List ℕ) (length : ℕ) :
    ℕ → ℕ → Option Doc → Option (List ℕ) → Except JsErr (Option Doc × Option (List ℕ))
  | 0, _, json, bin => .ok (json, bin)
  | fuel + 1, offset, json, bin =>
    if offset < length then
      match getUint32 bytes offset, getUint32 bytes (offset + 4) with
      | some chunkLen, some chunkType =>
        let chunkData := (bytes.drop (offset + 8)).take chunkLen
        if chunkType = jsonChunkTag then
          match jdec chunkData with
          | some d => chunkGo jdec bytes length fuel (offset + 8 + chunkLen) (some d) bin
          | none => .error .badJsonChunk
        else if chunkType = binChunkTag then
          chunkGo jdec bytes length fuel (offset + 8 + chunkLen) json (some chunkData)
        else
          chunkGo jdec bytes length fuel (offset + 8 + chunkLen) json bin
      | _, _ => .error .rangeError
    else .ok (json, bin)

/-- Chunk scan starting right after the 12-byte header with always-sufficient
fuel. -/
def readChunks (jdec : List ℕ → Option Doc) (bytes : List ℕ) (length : ℕ) :
    Except JsErr (Option Doc × Option (List ℕ)) :=
  chunkGo jdec bytes length (length + 1) 12 none none

structure ParseOut where
  json : Doc
  bin : Option (List ℕ)
  deriving DecidableEq, Repr

/-- Container parse (lines 29 to 53): header validation, the length-mismatch
warning, the chunk loop, and the missing-JSON-chunk check.  The returned pair
carries the console warnings alongside the Except result. -/
def parse (jdec : List ℕ → Option Doc) (bytes : List ℕ) :
    List Warning × Except JsErr ParseOut :=
  match getUint32 bytes 0 with
  | none => ([], .error .rangeError)
  | some magic =>
    if magic ≠ 0x46546C67 then ([], .error .notGLB) else
    match getUint32 bytes 4 with
    | none => ([], .error .rangeError)
    | some version =>
      if version ≠ 2 then ([], .error .badVersion) else
      match getUint32 bytes 8 with
      | none => ([], .error .rangeError)
      | some length =>
        ((if length ≠ bytes.length then [.lengthMismatch] else []),
          match readChunks jdec bytes length with
          | .error e => .error e
          | .ok (json, bin) =>
            match json with
            | none => .error .missingJsonChunk
            | some d => .ok ⟨d, bin⟩)

/-- Specification-side view of the chunk iteration: the list of
(type tag, clamped data) pairs the loop visits, independent of what the loop
does with them.  Used to state which chunk the parser keeps when several
share a type. -/
def chunkSeq (bytes : List ℕ) (length : ℕ) : ℕ → ℕ → Option (List (ℕ × List ℕ))
  | 0, _ => some []
  | fuel + 1, offset =>
    if offset < length then
      match getUint32 bytes offset, getUint32 bytes (offset + 4) with
      | some chunkLen, some chunkType =>
        (chunkSeq bytes length fuel (offset + 8 + chunkLen)).map
          (fun rest => (chunkType, (bytes.drop (offset + 8)).take chunkLen) :: rest)
      | _, _ => none
    else some []

/-- Payload of the last chunk carrying the given type tag, if any. -/
def lastOfType (t : ℕ) : List (ℕ × List ℕ) → Option (List ℕ)
  | [] => none
  | c :: rest =>
    match lastOfType t rest with
    | some p => some p
    | none => if c.1 = t then some c.2 else none

/-- Left-to-right effectful map over Except, mirroring an Array map whose
callback can throw: the first throw aborts the whole map. -/
def mapExcept (f : α → Except JsErr β) : List α → Except JsErr (List β)
  | [] => .ok []
  | a :: rest =>
    match f a with
    | .error e => .error e
    | .ok b => (mapExcept f rest).map (fun bs => b :: bs)

/-- Buffer resolution (lines 73 to 80): the first buffer descriptor binds to
the BIN chunk when one is present; any other situation throws.  An empty BIN
chunk is still an ArrayBuffer object and hence truthy. -/
def buildBuffers (doc : Doc) (bin : Option (List ℕ)) : Except JsErr (List (List ℕ)) :=
  match doc.buffers, bin with
  | [], _ => .ok []
  | [_], some b => .ok [b]
  | _, _ => .error .singleBinOnly

/-- View resolution (lines 84 to 87): slice the bound buffer.  ArrayBuffer
slice clamps both ends to the buffer, so an oversized range yields a shorter
slice, never an error; only a dangling buffer index throws (slice called on
undefined). -/
def resolveView (buffers : List (List ℕ)) (v : BufferViewDef) : Except JsErr (List ℕ) :=
  match buffers[v.buffer]? with
  | none => .error .typeError
  | some buf => .ok ((buf.drop (v.byteOffset.getD 0)).take (v.byteLength.getD 0))

/-- Width table of compTypeMap via BYTES_PER_ELEMENT (line 90). -/
def compTypeWidth (ct : ℕ) : Option ℕ :=
  if ct = 5120 then some 1
  else if ct = 5121 then some 1
  else if ct = 5122 then some 2
  else if ct = 5123 then some 2
  else if ct = 5125 then some 4
  else if ct = 5126 then some 4
  else none

/-- Element-type component counts, typeSizeMap of line 92. -/
def typeSize (t : String) : Option ℕ :=
  if t = "SCALAR" then some 1
  else if t = "VEC2" then some 2
  else if t = "VEC3" then some 3
  else if t = "VEC4" then some 4
  else if t = "MAT4" then some 16
  else if t = "MAT3" then some 9
  else if t = "MAT2" then some 4
  else none

/-- Value of one typed-array element read from the view at the given byte
position, little-endian.  Out-of-range byte reads cannot occur after the
constructor bounds check, so getD only supplies a formal default.  Float32
reinterpretation is the abstract parameter f32. -/
def decodeComp (f32 : ℕ → ℕ → ℕ → ℕ → ℚ) (ct : ℕ) (view : List ℕ) (pos : ℕ) : ℚ :=
  let b0 := view.getD pos 0
  let b1 := view.getD (pos + 1) 0
  let b2 := view.getD (pos + 2) 0
  let b3 := view.getD (pos + 3) 0
  if ct = 5120 then (if b0 < 128 then (b0 : ℚ) else (b0 : ℚ) - 256)
  else if ct = 5121 then (b0 : ℚ)
  else if ct = 5122 then
    (if b0 + 256 * b1 < 32768 then ((b0 + 256 * b1 : ℕ) : ℚ) else ((b0 + 256 * b1 : ℕ) : ℚ) - 65536)
  else if ct = 5123 then ((b0 + 256 * b1 : ℕ) : ℚ)
  else if ct = 5125 then ((b0 + 256 * b1 + 65536 * b2 + 16777216 * b3 : ℕ) : ℚ)
  else f32 b0 b1 b2 b3

/-- Record produced per accessor (line 98). -/
structure AccessorOut where
  array : List ℚ
  itemSize : ℕ
  normalized : Bool
  componentType : ℕ
  count : ℕ
  type : String
  deriving DecidableEq, Repr

/-- Accessor resolution (lines 88 to 99).  The typed-array constructor with
explicit offset and length throws a RangeError when the byte offset is not a
multiple of the element width or when offset plus length times width exceeds
the buffer length; called on an undefined buffer (dangling bufferView index)
it instead builds an empty zero-length array. -/
def resolveAccessor (f32 : ℕ → ℕ → ℕ → ℕ → ℚ) (views : List (List ℕ))
    (acc : AccessorDef) : Except JsErr AccessorOut :=
  match compTypeWidth acc.componentType with
  | none => .error .badComponentType
  | some w =>
    match typeSize acc.type with
    | none => .error .badAccessorType
    | some n =>
      let offset := acc.byteOffset.getD 0
      let length := acc.count * n
      match acc.bufferView.bind (fun i => views[i]?) with
      | none => .ok ⟨[], n, acc.normalized, acc.componentType, acc.count, acc.type⟩
      | some view =>
        if offset % w ≠ 0 then .error .rangeError
        else if view.length < offset + length * w then .error .rangeError
        else .ok ⟨(List.range length).map (fun i => decodeComp f32 acc.componentType view (offset + i * w)),
          n, acc.normalized, acc.componentType, acc.count, acc.type⟩

/-- Views then accessors, as in buildAccessors (lines 82 to 100). -/
def buildAccessors (f32 : ℕ → ℕ → ℕ → ℕ → ℚ) (doc : Doc) (buffers : List (List ℕ)) :
    Except JsErr (List AccessorOut) :=
  match mapExcept (resolveView buffers) doc.bufferViews with
  | .error e => .error e
  | .ok views => mapExcept (resolveAccessor f32 views) doc.accessors

/-- Truncation toward zero of a rational, the rounding ToInt32 starts with. -/
def ratTrunc (q : ℚ) : ℤ :=
  if 0 ≤ q then ⌊q⌋ else ⌈q⌉

/-- Reduce an integer into the signed 32-bit range, two-complement style. -/
def i32 (z : ℤ) : ℤ :=
  let m := z % 4294967296
  if m < 2147483648 then m else m - 4294967296

/-- Unsigned 32-bit representation of a signed 32-bit value. -/
def u32 (z : ℤ) : ℕ :=
  (z % 4294967296).toNat

/-- JavaScript ToInt32 on a number that may be NaN (none): truncate toward
zero and wrap into the signed 32-bit range; NaN becomes 0. -/
def toInt32q (x : Option ℚ) : ℤ :=
  match x with
  | none => 0
  | some q => i32 (ratTrunc q)

/-- JavaScript left shift by a constant below 32: ToInt32 the operand (here
already an integer), multiply by the power of two, wrap to 32 bits. -/
def jsShl (x : Option ℚ) (s : ℕ) : ℤ :=
  i32 (toInt32q x * 2 ^ s)

/-- JavaScript bitwise or of two int32 values. -/
def jsOr (a b : ℤ) : ℤ :=
  i32 ((Nat.lor (u32 a) (u32 b) : ℕ) : ℤ)

/-- Value of factor[i] || 0 multiplied by 255, the per-channel expression in
lines 145 and 158; the result none stands for NaN (a truthy non-number whose
ToNumber is NaN).  A missing entry and any falsy entry collapse to 0 through
the or-zero default. -/
def chanTimes255 (c : Option JChan) : Option ℚ :=
  match c with
  | none => some 0
  | some (.num q) => some (q * 255)
  | some (.other t truthy _) => if truthy then t.map (fun q => q * 255) else some 0

/-- Packing (r shl 16) or (g shl 8) or b applied to three factor channels. -/
def packColor (c0 c1 c2 : Option JChan) : ℤ :=
  jsOr (jsOr (jsShl (chanTimes255 c0) 16) (jsShl (chanTimes255 c1) 8))
    (toInt32q (chanTimes255 c2))

/-- Signed 32-bit channel value a single factor entry contributes before the
shift, named for stating the packing claims. -/
def chanI32 (c : Option JChan) : ℤ :=
  toInt32q (chanTimes255 c)

/-- Material options object assembled in lines 139 to 164.  Fields absent on
the JavaScript object until assigned are Options or default-false booleans;
opacity keeps the raw JavaScript value assigned to it, since the alpha branch
stores the factor entry unconverted. -/
structure MatOptions where
  color : ℤ := 0x2194f3
  metalness : ℚ := 1 / 10
  roughness : ℚ := 17 / 20
  transparent : Bool := false
  opacity : Option JChan := none
  map : Option Unit := none
  emissive : Option ℤ := none
  sideDouble : Bool := false
  vertexColors : Bool := false
  deriving DecidableEq, Repr

def defaultMat : MatOptions := {}

/-- Alpha test of line 147: the fourth factor entry passes when it is neither
undefined nor null and compares below 1 (a NaN coercion fails the
comparison); the raw entry is then stored as the opacity. -/
def alphaOf (c : Option JChan) : Option JChan :=
  match c with
  | none => none
  | some (.num q) => if q < 1 then some (.num q) else none
  | some (.other t truthy nullish) =>
    if nullish then none
    else match t with
      | some q => if q < 1 then some (.other t truthy nullish) else none
      | none => none

/-- Base-color-factor block (lines 144 to 148). -/
def applyBaseColor (f : Option (List JChan)) (o : MatOptions) : MatOptions :=
  match f with
  | none => o
  | some f =>
    let o := { o with color := packColor f[0]? f[1]? f[2]? }
    match alphaOf f[3]? with
    | some a => { o with transparent := true, opacity := some a }
    | none => o

/-- Base-color-texture block (lines 150 to 153); the textures list carries
which texture entries resolved to an object. -/
def applyBaseColorTexture (bct : Option TexRef) (textures : List (Option Unit))
    (o : MatOptions) : MatOptions :=
  match bct with
  | none => o
  | some r =>
    match r.index with
    | none => o
    | some ti =>
      match textures[ti]? with
      | some (some _) => { o with map := some (), color := 0xffffff }
      | _ => o

/-- Metallic-roughness block (lines 142 to 156). -/
def applyPbr (p : Option Pbr) (textures : List (Option Unit)) (o : MatOptions) : MatOptions :=
  match p with
  | none => o
  | some p =>
    let o := applyBaseColor p.baseColorFactor o
    let o := applyBaseColorTexture p.baseColorTexture textures o
    let o := match p.metallicFactor with
      | some m => { o with metalness := m }
      | none => o
    match p.roughnessFactor with
    | some r => { o with roughness := r }
    | none => o

/-- Emissive block (lines 157 to 160). -/
def applyEmissive (f : Option (List JChan)) (o : MatOptions) : MatOptions :=
  match f with
  | none => o
  | some f => { o with emissive := some (packColor f[0]? f[1]? f[2]?) }

/-- Double-sided flag (line 161). -/
def applyDoubleSided (d : Bool) (o : MatOptions) : MatOptions :=
  if d then { o with sideDouble := true } else o

/-- Blend alpha mode (line 162): force transparency and fall back to opacity
0.9 only when no opacity was stored yet. -/
def applyAlphaMode (m : Option String) (o : MatOptions) : MatOptions :=
  if m = some "BLEND" then
    let op : Option JChan :=
      match o.opacity with
      | none => some (.num (9 / 10))
      | some x => some x
    { o with transparent := true, opacity := op }
  else o

/-- Material-definition application in source order. -/
def applyMaterialDef (textures : List (Option Unit)) (mdef : MaterialDef)
    (o : MatOptions) : MatOptions :=
  applyAlphaMode mdef.alphaMode
    (applyDoubleSided mdef.doubleSided
      (applyEmissive mdef.emissiveFactor
        (applyPbr mdef.pbrMetallicRoughness textures o)))

/-- Material options for a primitive (lines 139 to 163): the default options
unless the material index is defined and lands on a material entry. -/
def resolveMaterial (textures : List (Option Unit)) (matDefs : List MaterialDef)
    (matIdx : Option ℕ) : MatOptions :=
  match matIdx.bind (fun i => matDefs[i]?) with
  | none => defaultMat
  | some mdef => applyMaterialDef textures mdef defaultMat

/-- JavaScript string-or-default idiom name || dflt: the empty string is
falsy and also falls back. -/
def nameOr (s : Option String) (dflt : String) : String :=
  match s with
  | some s => if s = "" then dflt else s
  | none => dflt

/-- Image record handed to the texture stage: embedded bytes, a data URI kept
verbatim, or an external URI resolved against the source location.  Blob
construction, MIME tagging and object-URL creation only wrap these bytes for
the collaborator and are not modelled further. -/
inductive ImgOut where
  | blob (bytes : List ℕ)
  | dataUri (s : String)
  | external (s : String)
  deriving DecidableEq, Repr

/-- Base path of the source URL: everything up to and including the last
slash, or empty when the URL is absent or has no slash (lines 188). -/
def basePathOf (url : Option String) : String :=
  match url with
  | none => ""
  | some u =>
    if u = "" then ""
    else
      match (u.data.reverse.findIdx? (fun c => c = '/')) with
      | none => ""
      | some ridx => String.mk (u.data.take (u.data.length - ridx))

/-- Image resolution (lines 185 to 205).  A bufferView image slices the raw
BIN chunk through the raw bufferView descriptor (not the resolved views);
a dangling bufferView index or an absent BIN chunk throws a TypeError.
Otherwise a non-empty URI is classified as data URI or external; anything
else yields null. -/
def buildImages (doc : Doc) (bin : Option (List ℕ)) (url : Option String) :
    Except JsErr (List (Option ImgOut)) :=
  mapExcept
    (fun img =>
      match img.bufferView with
      | some bv =>
        match doc.bufferViews[bv]? with
        | none => .error .typeError
        | some v =>
          match bin with
          | none => .error .typeError
          | some b =>
            .ok (some (.blob ((b.drop (v.byteOffset.getD 0)).take (v.byteLength.getD 0))))
      | none =>
        match img.uri with
        | some u =>
          if u = "" then .ok none
          else if u.startsWith "data:" then .ok (some (.dataUri u))
          else .ok (some (.external (basePathOf url ++ u)))
        | none => .ok none)
    doc.images

/-- Texture resolution (lines 207 to 232) reduced to which texture entries
produce a texture object: a texture with no source or whose source lands on
no image record yields null.  Wrap and filter configuration only mutates the
collaborator texture and is not tracked. -/
def buildTextures (doc : Doc) (images : List (Option ImgOut)) : List (Option Unit) :=
  doc.textures.map
    (fun t =>
      match t.source with
      | none => none
      | some s =>
        match images[s]? with
        | some (some _) => some ()
        | _ => none)

/-- Geometry attribute as attached through a BufferAttribute. -/
structure AttrOut where
  array : List ℚ
  itemSize : ℕ
  normalized : Bool
  deriving DecidableEq, Repr

/-- BufferGeometry contents after primitive construction. -/
structure GeomOut where
  position : Option AttrOut := none
  normal : Option AttrOut := none
  color : Option AttrOut := none
  index : Option AttrOut := none
  deriving DecidableEq, Repr

structure MeshOut where
  name : String
  geometry : GeomOut
  material : MatOptions
  deriving DecidableEq, Repr

structure GroupOut where
  name : String
  meshes : List MeshOut
  deriving DecidableEq, Repr

/-- Vertex-color conversion of lines 119 to 131: an unnormalized uint8 or
uint16 color array is rescaled into the unit range; anything else is taken
as-is. -/
def colorArrayOf (cAcc : AccessorOut) : List ℚ :=
  if cAcc.normalized then cAcc.array
  else if cAcc.componentType = 5121 then cAcc.array.map (fun x => x / 255)
  else if cAcc.componentType = 5123 then cAcc.array.map (fun x => x / 65535)
  else cAcc.array

/-- Construction of one primitive (lines 106 to 169).  The mode guard uses
the truthiness of prim.mode, so only a present, non-zero, non-4 mode skips.
A missing attributes object or POSITION entry skips with a warning.  Each
accessor lookup on a dangling index throws a TypeError at the first property
access on undefined. -/
def buildPrim (textures : List (Option Unit)) (matDefs : List MaterialDef)
    (accessors : List AccessorOut) (meshName : Option String) (idx : ℕ)
    (prim : PrimitiveDef) : List Warning × Except JsErr (Option MeshOut) :=
  let modeSkip : Bool :=
    match prim.mode with
    | some m => decide (m ≠ 0) && decide (m ≠ 4)
    | none => false
  if modeSkip then ([.primModeSkipped], .ok none)
  else
    match prim.attributes with
    | none => ([.primMissingPosition], .ok none)
    | some attrs =>
      match attrs.POSITION with
      | none => ([.primMissingPosition], .ok none)
      | some pi =>
        match accessors[pi]? with
        | none => ([], .error .typeError)
        | some posAcc =>
          let geom : GeomOut := { position := some ⟨posAcc.array, posAcc.itemSize, posAcc.normalized⟩ }
          let normalStep : Except JsErr GeomOut :=
            match attrs.NORMAL with
            | none => .ok geom
            | some ni =>
              match accessors[ni]? with
              | none => .error .typeError
              | some nAcc => .ok { geom with normal := some ⟨nAcc.array, nAcc.itemSize, nAcc.normalized⟩ }
          match normalStep with
          | .error e => ([], .error e)
          | .ok geom =>
            let colorStep : Except JsErr (GeomOut × Bool) :=
              match attrs.COLOR_0 with
              | none => .ok (geom, false)
              | some ci =>
                match accessors[ci]? with
                | none => .error .typeError
                | some cAcc =>
                  .ok ({ geom with color := some ⟨colorArrayOf cAcc, cAcc.itemSize, false⟩ }, true)
            match colorStep with
            | .error e => ([], .error e)
            | .ok (geom, usesVertexColor) =>
              let indexStep : Except JsErr GeomOut :=
                match prim.indices with
                | none => .ok geom
                | some ii =>
                  match accessors[ii]? with
                  | none => .error .typeError
                  | some iAcc => .ok { geom with index := some ⟨iAcc.array, 1, false⟩ }
              match indexStep with
              | .error e => ([], .error e)
              | .ok geom =>
                let mat := resolveMaterial textures matDefs prim.material
                let mat := if usesVertexColor then { mat with vertexColors := true } else mat
                ([], .ok (some ⟨nameOr meshName "mesh" ++ "_" ++ toString idx, geom, mat⟩))

/-- Left-to-right primitive fold with warning accumulation; a thrown error
aborts the remaining primitives, exactly like an exception escaping forEach. -/
def buildPrims (textures : List (Option Unit)) (matDefs : List MaterialDef)
    (accessors : List AccessorOut) (meshName : Option String) :
    ℕ → List PrimitiveDef → List Warning × Except JsErr (List MeshOut)
  | _, [] => ([], .ok [])
  | idx, p :: rest =>
    match buildPrim textures matDefs accessors meshName idx p with
    | (w, .error e) => (w, .error e)
    | (w, .ok m?) =>
      match buildPrims textures matDefs accessors meshName (idx + 1) rest with
      | (w2, .error e) => (w ++ w2, .error e)
      | (w2, .ok ms) =>
        (w ++ w2, .ok (match m? with | some m => m :: ms | none => ms))

/-- Mesh group construction of buildMesh (lines 102 to 172). -/
def buildMesh (textures : List (Option Unit)) (matDefs : List MaterialDef)
    (accessors : List AccessorOut) (meshDef : MeshDef) :
    List Warning × Except JsErr GroupOut :=
  match buildPrims textures matDefs accessors meshDef.name 0 meshDef.primitives with
  | (w, .error e) => (w, .error e)
  | (w, .ok ms) => (w, .ok ⟨nameOr meshDef.name "mesh", ms⟩)

/-- All meshes in order, with warnings concatenated and the first error
aborting the rest of the mesh array map. -/
def buildMeshes (textures : List (Option Unit)) (matDefs : List MaterialDef)
    (accessors : List AccessorOut) : List MeshDef → List Warning × Except JsErr (List GroupOut)
  | [] => ([], .ok [])
  | m :: rest =>
    match buildMesh textures matDefs accessors m with
    | (w, .error e) => (w, .error e)
    | (w, .ok g) =>
      match buildMeshes textures matDefs accessors rest with
      | (w2, .error e) => (w ++ w2, .error e)
      | (w2, .ok gs) => (w ++ w2, .ok (g :: gs))

/-- Node object before child linking (lines 174 to 183).  The transform
components record what fromArray and quaternion.set receive: a missing array
entry is undefined (none), matching the NaN it would produce on the
collaborator object.  A mesh reference is cloned by value; a dangling mesh
index throws (clone called on undefined). -/
structure NodeOut where
  name : String
  meshChild : Option GroupOut
  position : List (Option ℚ)
  scale : List (Option ℚ)
  quaternion : List (Option ℚ)
  deriving DecidableEq, Repr

def buildNode (meshes : List GroupOut) (n : NodeDef) : Except JsErr NodeOut :=
  let meshStep : Except JsErr (Option GroupOut) :=
    match n.mesh with
    | none => .ok none
    | some mi =>
      match meshes[mi]? with
      | none => .error .typeError
      | some g => .ok (some g)
  match meshStep with
  | .error e => .error e
  | .ok mc =>
    let pos : List (Option ℚ) :=
      match n.translation with
      | none => [some 0, some 0, some 0]
      | some t => [t[0]?, t[1]?, t[2]?]
    let scl : List (Option ℚ) :=
      match n.scale with
      | none => [some 1, some 1, some 1]
      | some s => [s[0]?, s[1]?, s[2]?]
    let quat : List (Option ℚ) :=
      match n.rotation with
      | none => [some 0, some 0, some 0, some 1]
      | some r => [r[0]?, r[1]?, r[2]?, r[3]?]
    .ok ⟨nameOr n.name "node", mc, pos, scl, quat⟩

/-- Scene output.  The mutable reference graph the source wires with add is
represented by index adjacency: childLinks gives, per node, the indices of
the child nodes actually attached (line 65 skips indices with no node), and
rootChildren the node indices attached to the root group (line 69 likewise). -/
structure SceneOut where
  name : String
  nodes : List NodeOut
  childLinks : List (List ℕ)
  rootChildren : List ℕ
  deriving DecidableEq, Repr

/-- Scene assembly pipeline of buildScene (lines 55 to 71). -/
def buildScene (f32 : ℕ → ℕ → ℕ → ℕ → ℚ) (url : Option String) (doc : Doc)
    (bin : Option (List ℕ)) : List Warning × Except JsErr SceneOut :=
  match buildBuffers doc bin with
  | .error e => ([], .error e)
  | .ok buffers =>
    match buildAccessors f32 doc buffers with
    | .error e => ([], .error e)
    | .ok accessors =>
      match buildImages doc bin url with
      | .error e => ([], .error e)
      | .ok images =>
        let textures := buildTextures doc images
        match buildMeshes textures doc.materials accessors doc.meshes with
        | (w, .error e) => (w, .error e)
        | (w, .ok meshes) =>
          match mapExcept (buildNode meshes) doc.nodes with
          | .error e => (w, .error e)
          | .ok nodes =>
            let childLinks := doc.nodes.map (fun n => n.children.filter (fun c => c < nodes.length))
            let rootChildren :=
              match doc.scenes[doc.scene.getD 0]? with
              | none => []
              | some sd => sd.nodes.filter (fun i => i < nodes.length)
            (w, .ok ⟨"GLBScene", nodes, childLinks, rootChildren⟩)

structure DecodeOut where
  scene : SceneOut
  json : Doc
  deriving DecidableEq, Repr

/-- Full decode: container parse followed by scene assembly, with warnings
concatenated in emission order. -/
def decodeGLB (jdec : List ℕ → Option Doc) (f32 : ℕ → ℕ → ℕ → ℕ → ℚ)
    (url : Option String) (bytes : List ℕ) : List Warning × Except JsErr DecodeOut :=
  match parse jdec bytes with
  | (w, .error e) => (w, .error e)
  | (w, .ok po) =>
    match buildScene f32 url po.json po.bin with
    | (w2, .error e) => (w ++ w2, .error e)
    | (w2, .ok s) => (w ++ w2, .ok ⟨s, po.json⟩)

/-- Trivial float32 environment used for concrete instances; none of them
ever reaches the float32 branch. -/
def f32zero : ℕ → ℕ → ℕ → ℕ → ℚ := fun _ _ _ _ => 0

/-- Metadata decoder that accepts any chunk and yields the empty document. -/
def jdecConst : List ℕ → Option Doc := fun _ => some emptyDoc

/- ------------------------------------------------------------------ -/
/- Theorems settling the claims                                       -/
/- ------------------------------------------------------------------ -/

/-- C4 counterexample.  A bufferView of declared length 10 over a 4-byte
buffer does not fail: view resolution returns the clamped 4-byte slice, so
the claimed OutOfRange failure does not happen. -/
theorem c4_counterexample :
    resolveView [[1, 2, 3, 4]] ⟨0, some 0, some 10⟩ = .ok [1, 2, 3, 4]
      ∧ 4 < 0 + 10 := by
  decide

/-- C4 amended.  View resolution never fails on a valid buffer index: the
slice is the byte range clamped to the buffer, of length the minimum of the
declared byte length and the bytes remaining after the offset; when the
declared range fits, the full declared length is obtained. -/
theorem c4_view_clamps (buffers : List (List ℕ)) (v : BufferViewDef) (buf : List ℕ)
    (h : buffers[v.buffer]? = some buf) :
    ∃ s, resolveView buffers v = .ok s
      ∧ s.length = min (v.byteLength.getD 0) (buf.length - v.byteOffset.getD 0)
      ∧ (v.byteOffset.getD 0 + v.byteLength.getD 0 ≤ buf.length →
          s.length = v.byteLength.getD 0) := by
  refine ⟨(buf.drop (v.byteOffset.getD 0)).take (v.byteLength.getD 0), ?_, ?_, ?_⟩
  · simp [resolveView, h]
  · simp [List.length_take, List.length_drop]
  · intro hle
    simp [List.length_take, List.length_drop]
    omega

/-- C4 witness. -/
theorem c4_witness :
    ∃ s, resolveView [[1, 2, 3]] ⟨0, some 1, some 5⟩ = .ok s
      ∧ s.length = min 5 (3 - 1)
      ∧ (1 + 5 ≤ 3 → s.length = 5) :=
  c4_view_clamps [[1, 2, 3]] ⟨0, some 1, some 5⟩ [1, 2, 3] rfl

/-- C5 counterexample.  An accessor whose byte span fits inside its view (2
plus 1 times 1 times 4 is 6, at most the view length 8) still fails, because
a float32 typed array cannot start at byte offset 2; so the converse half of
the claim is false as stated. -/
theorem c5_counterexample :
    resolveAccessor f32zero [[0, 0, 0, 0, 0, 0, 0, 0]]
        ⟨some 0, some 2, 5126, "SCALAR", 1, false⟩ = .error .rangeError
      ∧ 2 + 1 * 1 * 4 ≤ 8 := by
  decide

/-- C5 amended.  When the computed byte span exceeds the view length the
accessor fails with the range error; when the span fits and additionally the
byte offset is a multiple of the component width, resolution succeeds with a
typed sequence of count times componentCount values. -/
theorem c5_accessor_range (f32 : ℕ → ℕ → ℕ → ℕ → ℚ) (views : List (List ℕ))
    (acc : AccessorDef) (view : List ℕ) (w n : ℕ)
    (hv : acc.bufferView.bind (fun i => views[i]?) = some view)
    (hw : compTypeWidth acc.componentType = some w)
    (hn : typeSize acc.type = some n) :
    (view.length < acc.byteOffset.getD 0 + acc.count * n * w →
      resolveAccessor f32 views acc = .error .rangeError)
    ∧ (acc.byteOffset.getD 0 + acc.count * n * w ≤ view.length →
        acc.byteOffset.getD 0 % w = 0 →
        ∃ out, resolveAccessor f32 views acc = .ok out
          ∧ out.array.length = acc.count * n ∧ out.itemSize = n) := by
  constructor
  · intro hlt
    simp only [resolveAccessor, hw, hn, hv]
    split_ifs with h1 <;> rfl
  · intro hle hal
    simp only [resolveAccessor, hw, hn, hv]
    rw [if_neg (by simp [hal]), if_neg (by omega)]
    exact ⟨_, rfl, by simp, rfl⟩

/-- C5 witness: one overflowing accessor fails, one fitting aligned accessor
yields the four declared values. -/
theorem c5_witness :
    resolveAccessor f32zero [[0, 0, 0, 0]]
        ⟨some 0, some 0, 5121, "SCALAR", 9, false⟩ = .error .rangeError
      ∧ ∃ out, resolveAccessor f32zero [[0, 0, 0, 0]]
          ⟨some 0, some 0, 5121, "SCALAR", 4, false⟩ = .ok out
        ∧ out.array.length = 4 * 1 ∧ out.itemSize = 1 :=
  ⟨(c5_accessor_range f32zero [[0, 0, 0, 0]] ⟨some 0, some 0, 5121, "SCALAR", 9, false⟩
      [0, 0, 0, 0] 1 1 rfl rfl rfl).1 (by decide),
   (c5_accessor_range f32zero [[0, 0, 0, 0]] ⟨some 0, some 0, 5121, "SCALAR", 4, false⟩
      [0, 0, 0, 0] 1 1 rfl rfl rfl).2 (by decide) (by decide)⟩

/-- Position accessor record used for the C6 evaluation. -/
def accPosC6 : AccessorOut := ⟨[0, 0, 0], 3, false, 5126, 1, "VEC3"⟩

/-- Primitive with the given mode and a POSITION attribute at accessor 0. -/
def primWithMode (m : Option ℕ) : PrimitiveDef := ⟨some ⟨some 0, none, none⟩, m, none, none⟩

/-- Mesh of four primitives: mode 5, mode 0, no attributes, mode 4. -/
def meshC6 : MeshDef :=
  ⟨none, [primWithMode (some 5), primWithMode (some 0), ⟨none, none, none, none⟩,
    primWithMode (some 4)]⟩

/-- C6 evaluation at the failing input.  The mode-5 primitive and the one
without POSITION are skipped with warnings, and the mode-4 primitive is
built, as the claim states; but the primitive with mode 0 (POINTS, present
and different from 4) is also built, with no warning, because the guard
tests the truthiness of prim.mode and 0 is falsy.  The claim and the inline
warning text (skip when mode is not TRIANGLES) describe the evident intent;
the truthiness test is the slip. -/
theorem c6_code_eval :
    (buildMesh [] [] [accPosC6] meshC6).1 = [.primModeSkipped, .primMissingPosition]
      ∧ ((buildMesh [] [] [accPosC6] meshC6).2).map (fun g => g.meshes.map (fun m => m.name))
        = .ok ["mesh_1", "mesh_3"] := by
  decide

/-- C8.  Vertex colors: an unnormalized uint8 accessor is rescaled by 255, an
unnormalized uint16 accessor by 65535, a normalized accessor and a float32
accessor are attached unchanged, and the concrete uint8 VEC4 bytes
255, 128, 0, 255 decode to 1, 128 over 255, 0, 1. -/
theorem c8_color_rescale :
    (∀ acc : AccessorOut, acc.normalized = false → acc.componentType = 5121 →
      colorArrayOf acc = acc.array.map (fun x => x / 255))
    ∧ (∀ acc : AccessorOut, acc.normalized = false → acc.componentType = 5123 →
      colorArrayOf acc = acc.array.map (fun x => x / 65535))
    ∧ (∀ acc : AccessorOut, acc.normalized = true → colorArrayOf acc = acc.array)
    ∧ (∀ acc : AccessorOut, acc.componentType = 5126 → colorArrayOf acc = acc.array)
    ∧ (∀ f32, ∃ out,
        resolveAccessor f32 [[255, 128, 0, 255]] ⟨some 0, none, 5121, "VEC4", 1, false⟩ = .ok out
        ∧ colorArrayOf out = [1, 128 / 255, 0, 1]) := by
  refine ⟨?_, ?_, ?_, ?_, ?_⟩
  · intro acc h1 h2; simp [colorArrayOf, h1, h2]
  · intro acc h1 h2; simp [colorArrayOf, h1, h2]
  · intro acc h1; simp [colorArrayOf, h1]
  · intro acc h1; simp [colorArrayOf, h1]
  · intro f32
    refine ⟨⟨[255, 128, 0, 255], 4, false, 5121, 1, "VEC4"⟩, ?_, ?_⟩
    · have hred : resolveAccessor f32 [[255, 128, 0, 255]] ⟨some 0, none, 5121, "VEC4", 1, false⟩
          = .ok ⟨(List.range (1 * 4)).map
              (fun i => decodeComp f32 5121 [255, 128, 0, 255] (0 + i * 1)),
            4, false, 5121, 1, "VEC4"⟩ := rfl
      rw [hred]
      norm_num [List.range_succ, decodeComp]
    · norm_num [colorArrayOf]

/-- C8 witness at a concrete unnormalized uint8 accessor record. -/
theorem c8_witness :
    colorArrayOf ⟨[2, 4], 4, false, 5121, 1, "VEC4"⟩ = [2 / 255, 4 / 255] := by
  have h := c8_color_rescale.1 ⟨[2, 4], 4, false, 5121, 1, "VEC4"⟩ rfl rfl
  simpa using h

/-- Identity of the 32-bit wrap on the signed in-range values. -/
lemma i32_of_range (z : ℤ) (h0 : 0 ≤ z) (h1 : z < 2147483648) : i32 z = z := by
  show (if z % 4294967296 < 2147483648 then z % 4294967296
    else z % 4294967296 - 4294967296) = z
  split_ifs with h <;> omega

/-- Channel value of a numeric factor entry: multiply by 255, truncate. -/
lemma chanI32_num (q : ℚ) (h0 : 0 ≤ q) (h1 : q * 255 < 2147483648) :
    chanI32 (some (.num q)) = ⌊q * 255⌋ := by
  have hq0 : (0 : ℚ) ≤ q * 255 := by positivity
  have hf0 : (0 : ℤ) ≤ ⌊q * 255⌋ := Int.floor_nonneg.mpr hq0
  have hf1 : ⌊q * 255⌋ < 2147483648 := by
    rw [Int.floor_lt]
    exact_mod_cast h1
  show i32 (ratTrunc (q * 255)) = ⌊q * 255⌋
  have htr : ratTrunc (q * 255) = ⌊q * 255⌋ := by
    show (if (0 : ℚ) ≤ q * 255 then ⌊q * 255⌋ else ⌈q * 255⌉) = ⌊q * 255⌋
    rw [if_pos hq0]
  rw [htr]
  exact i32_of_range _ hf0 hf1

/-- Evaluation scaffold for packColor in terms of the channel values. -/
lemma packColor_eval (c0 c1 c2 : Option JChan) (a b c : ℤ)
    (h0 : chanI32 c0 = a) (h1 : chanI32 c1 = b) (h2 : chanI32 c2 = c) :
    packColor c0 c1 c2 = jsOr (jsOr (i32 (a * 65536)) (i32 (b * 256))) c := by
  show jsOr (jsOr (i32 (chanI32 c0 * 2 ^ 16)) (i32 (chanI32 c1 * 2 ^ 8))) (chanI32 c2) = _
  rw [h0, h1, h2]
  norm_num

/-- Projections of the material steps that do not touch color, transparency
or opacity. -/
lemma applyEmissive_keeps (f : Option (List JChan)) (o : MatOptions) :
    (applyEmissive f o).color = o.color ∧ (applyEmissive f o).transparent = o.transparent
      ∧ (applyEmissive f o).opacity = o.opacity := by
  cases f <;> exact ⟨rfl, rfl, rfl⟩

lemma applyDoubleSided_keeps (d : Bool) (o : MatOptions) :
    (applyDoubleSided d o).color = o.color ∧ (applyDoubleSided d o).transparent = o.transparent
      ∧ (applyDoubleSided d o).opacity = o.opacity := by
  cases d <;> exact ⟨rfl, rfl, rfl⟩

lemma applyAlphaMode_keeps_color (m : Option String) (o : MatOptions) :
    (applyAlphaMode m o).color = o.color := by
  unfold applyAlphaMode
  split_ifs <;> rfl

lemma applyAlphaMode_transparent_of (m : Option String) (o : MatOptions)
    (h : o.transparent = true) : (applyAlphaMode m o).transparent = true := by
  unfold applyAlphaMode
  split_ifs <;> simp [h]

lemma applyAlphaMode_opacity_of (m : Option String) (o : MatOptions) (x : JChan)
    (h : o.opacity = some x) : (applyAlphaMode m o).opacity = some x := by
  unfold applyAlphaMode
  split_ifs <;> simp [h]

lemma applyPbr_factors (p : Pbr) (textures : List (Option Unit)) (o : MatOptions) :
    (applyPbr (some p) textures o).color
        = (applyBaseColorTexture p.baseColorTexture textures (applyBaseColor p.baseColorFactor o)).color
      ∧ (applyPbr (some p) textures o).transparent
        = (applyBaseColorTexture p.baseColorTexture textures (applyBaseColor p.baseColorFactor o)).transparent
      ∧ (applyPbr (some p) textures o).opacity
        = (applyBaseColorTexture p.baseColorTexture textures (applyBaseColor p.baseColorFactor o)).opacity := by
  rcases hm : p.metallicFactor with _ | m <;> rcases hr : p.roughnessFactor with _ | r <;>
    simp only [applyPbr, hm, hr] <;> refine ⟨?_, ?_, ?_⟩ <;> trivial

/-- C7.  A material whose base color factor is 1, 0, 0, 0.5 (and which does
not substitute a base color texture) resolves to a fully red base color with
transparency enabled and opacity one half, whatever its alpha mode is; in
particular a BLEND alpha mode does not replace the explicit 0.5 with the 0.9
fallback, since the fallback only fires when no opacity is stored yet. -/
theorem c7_base_color_factor (textures : List (Option Unit)) (matDefs : List MaterialDef)
    (i : ℕ) (mdef : MaterialDef) (p : Pbr)
    (hm : matDefs[i]? = some mdef)
    (hp : mdef.pbrMetallicRoughness = some p)
    (hf : p.baseColorFactor = some [.num 1, .num 0, .num 0, .num (1 / 2)])
    (ht : p.baseColorTexture = none) :
    (resolveMaterial textures matDefs (some i)).color = 0xFF0000
      ∧ (resolveMaterial textures matDefs (some i)).transparent = true
      ∧ (resolveMaterial textures matDefs (some i)).opacity = some (.num (1 / 2)) := by
  have hres : resolveMaterial textures matDefs (some i) = applyMaterialDef textures mdef defaultMat := by
    simp only [resolveMaterial, Option.bind, hm]
  -- base color block on the concrete factor list
  have hpack : packColor (some (.num 1)) (some (.num 0)) (some (.num 0)) = 16711680 := by
    have ha : chanI32 (some (.num 1)) = 255 := by
      rw [chanI32_num 1 (by norm_num) (by norm_num)]
      norm_num
    have hb : chanI32 (some (.num 0)) = 0 := by
      rw [chanI32_num 0 (by norm_num) (by norm_num)]
      norm_num
    rw [packColor_eval _ _ _ 255 0 0 ha hb hb]
    decide
  have halpha : alphaOf (some (.num (1 / 2))) = some (.num (1 / 2)) := by
    show (if (1 / 2 : ℚ) < 1 then some (JChan.num (1 / 2)) else none) = some (JChan.num (1 / 2))
    rw [if_pos (by norm_num)]
  have hbc : applyBaseColor p.baseColorFactor defaultMat
      = { defaultMat with color := 16711680, transparent := true, opacity := some (.num (1 / 2)) } := by
    rw [hf]
    show (match alphaOf (some (.num (1 / 2))) with
      | some a =>
        { ({ defaultMat with
              color := packColor (some (.num 1)) (some (.num 0)) (some (.num 0)) }) with
            transparent := true, opacity := some a }
      | none =>
        { defaultMat with
            color := packColor (some (.num 1)) (some (.num 0)) (some (.num 0)) }) = _
    rw [halpha, hpack]
  have hafter : applyBaseColorTexture p.baseColorTexture textures (applyBaseColor p.baseColorFactor defaultMat)
      = { defaultMat with color := 16711680, transparent := true, opacity := some (.num (1 / 2)) } := by
    rw [ht, hbc]
    rfl
  rw [hres]
  unfold applyMaterialDef
  rw [hp]
  obtain ⟨hc1, ht1, ho1⟩ := applyPbr_factors p textures defaultMat
  rw [hafter] at hc1 ht1 ho1
  obtain ⟨hc2, ht2, ho2⟩ := applyEmissive_keeps mdef.emissiveFactor (applyPbr (some p) textures defaultMat)
  obtain ⟨hc3, ht3, ho3⟩ := applyDoubleSided_keeps mdef.doubleSided
    (applyEmissive mdef.emissiveFactor (applyPbr (some p) textures defaultMat))
  refine ⟨?_, ?_, ?_⟩
  · rw [applyAlphaMode_keeps_color, hc3, hc2, hc1]
  · exact applyAlphaMode_transparent_of _ _ (by rw [ht3, ht2, ht1])
  · exact applyAlphaMode_opacity_of _ _ _ (by rw [ho3, ho2, ho1])

/-- Material used by the C7 witness: the concrete factor together with the
BLEND alpha mode. -/
def mdefC7 : MaterialDef :=
  ⟨some ⟨some [.num 1, .num 0, .num 0, .num (1 / 2)], none, none, none⟩, none, false, some "BLEND"⟩

/-- C7 witness: the red half-transparent factor with alphaMode BLEND keeps
opacity one half. -/
theorem c7_witness :
    (resolveMaterial [] [mdefC7] (some 0)).color = 0xFF0000
      ∧ (resolveMaterial [] [mdefC7] (some 0)).transparent = true
      ∧ (resolveMaterial [] [mdefC7] (some 0)).opacity = some (.num (1 / 2)) :=
  c7_base_color_factor [] [mdefC7] 0 mdefC7 ⟨some [.num 1, .num 0, .num 0, .num (1 / 2)], none, none, none⟩
    rfl rfl rfl rfl

/-- Chunk iteration stops as soon as the cursor reaches the declared length,
whatever bytes remain in the actual buffer. -/
lemma chunkGo_stop (jdec : List ℕ → Option Doc) (bytes : List ℕ) (length fuel offset : ℕ)
    (json : Option Doc) (bin : Option (List ℕ)) (h : length ≤ offset) :
    chunkGo jdec bytes length fuel offset json bin = .ok (json, bin) := by
  cases fuel with
  | zero => rfl
  | succ f =>
    simp only [chunkGo]
    rw [if_neg (by omega)]

/-- Container bytes with declared total length 12 but 21 actual bytes: a
well-formed JSON chunk follows the header, beyond the declared length. -/
def bytesC2 : List ℕ :=
  [103, 108, 84, 70, 2, 0, 0, 0, 12, 0, 0, 0, 1, 0, 0, 0, 74, 83, 79, 78, 5]

/-- C2 counterexample.  With the declared length 12 and the actual length 21,
the parse warns but then aborts with the missing-JSON-chunk error, because
chunk iteration is bounded by the declared length and never reaches the JSON
chunk that lies within the actual buffer; so parsing does abort, and
iteration is not governed by the actual length. -/
theorem c2_counterexample :
    parse jdecConst bytesC2 = ([.lengthMismatch], .error .missingJsonChunk)
      ∧ bytesC2.length = 21 ∧ getUint32 bytesC2 8 = some 12 := by
  decide

/-- C2 amended.  A declared length different from the actual buffer length
emits the warning and is not itself fatal: the result is whatever the chunk
phase produces; but chunk iteration is governed by the declared length, so a
declared length of at most 12 yields no chunks at all and the parse then
fails for want of a JSON chunk even if chunks follow in the actual buffer. -/
theorem c2_mismatch_warns (jdec : List ℕ → Option Doc) (bytes : List ℕ) (L : ℕ)
    (h0 : getUint32 bytes 0 = some 0x46546C67)
    (h4 : getUint32 bytes 4 = some 2)
    (h8 : getUint32 bytes 8 = some L)
    (hne : L ≠ bytes.length) :
    (parse jdec bytes).1 = [.lengthMismatch]
      ∧ (∀ d b, readChunks jdec bytes L = .ok (some d, b) → (parse jdec bytes).2 = .ok ⟨d, b⟩)
      ∧ (L ≤ 12 → (parse jdec bytes).2 = .error .missingJsonChunk) := by
  have hparse : parse jdec bytes =
      ((if L ≠ bytes.length then [.lengthMismatch] else []),
        match readChunks jdec bytes L with
        | .error e => .error e
        | .ok (json, bin) =>
          match json with
          | none => .error .missingJsonChunk
          | some d => .ok ⟨d, bin⟩) := by
    simp only [parse, h0, h4, h8]
    rw [if_neg (by decide), if_neg (by decide)]
  refine ⟨?_, ?_, ?_⟩
  · rw [hparse]
    simp [hne]
  · intro d b h
    rw [hparse]
    simp only
    rw [h]
  · intro h12
    rw [hparse]
    simp only
    rw [show readChunks jdec bytes L = .ok (none, none) from
      chunkGo_stop jdec bytes L (L + 1) 12 none none h12]

/-- C2 witness: the amended statement applied to the concrete mismatching
container. -/
theorem c2_witness :
    (parse jdecConst bytesC2).1 = [.lengthMismatch]
      ∧ (parse jdecConst bytesC2).2 = .error .missingJsonChunk :=
  ⟨(c2_mismatch_warns jdecConst bytesC2 12 (by decide) (by decide) (by decide) (by decide)).1,
   (c2_mismatch_warns jdecConst bytesC2 12 (by decide) (by decide) (by decide) (by decide)).2.2
     (by decide)⟩

/-- Container bytes with correct declared length 32: a JSON chunk with one
payload byte, then a BIN chunk whose header declares a length of 100 with
only 3 bytes remaining in the buffer. -/
def bytesC3 : List ℕ :=
  [103, 108, 84, 70, 2, 0, 0, 0, 32, 0, 0, 0,
   1, 0, 0, 0, 74, 83, 79, 78, 42,
   100, 0, 0, 0, 66, 73, 78, 0, 7, 8, 9]

/-- C3 counterexample.  The BIN chunk header at offset 21 declares 100 bytes,
extending far past the declared total length 32, yet parsing succeeds and the
binary payload is the silently truncated 3-byte remainder; no
MalformedContainer failure occurs. -/
theorem c3_counterexample :
    parse jdecConst bytesC3 = ([], .ok ⟨emptyDoc, some [7, 8, 9]⟩)
      ∧ getUint32 bytesC3 8 = some 32
      ∧ getUint32 bytesC3 21 = some 100
      ∧ 32 < 21 + 8 + 100 := by
  decide

/-- C3 amended.  A chunk whose declared length extends past the declared
total length is not an error: its data is the ArrayBuffer slice clamped to
the available bytes, the cursor jumps past the declared end, and iteration
stops normally. -/
theorem c3_oversized_chunk_truncates (jdec : List ℕ → Option Doc) (bytes : List ℕ)
    (L fuel offset : ℕ) (json : Option Doc) (bin : Option (List ℕ)) (cl : ℕ)
    (hf : 0 < fuel)
    (ho : offset < L)
    (hl : getUint32 bytes offset = some cl)
    (ht : getUint32 bytes (offset + 4) = some binChunkTag)
    (hpast : L < offset + 8 + cl) :
    chunkGo jdec bytes L fuel offset json bin
      = .ok (json, some ((bytes.drop (offset + 8)).take cl)) := by
  cases fuel with
  | zero => omega
  | succ f =>
    simp only [chunkGo]
    rw [if_pos ho, hl, ht]
    simp only
    rw [if_neg (by decide)]
    simp only [if_true]
    exact chunkGo_stop jdec bytes L f (offset + 8 + cl) json _ (by omega)

/-- C3 witness: the amended statement applied at the concrete oversized BIN
chunk of the C3 container. -/
theorem c3_witness :
    chunkGo jdecConst bytesC3 32 5 21 (some emptyDoc) none
        = .ok (some emptyDoc, some ((bytesC3.drop (21 + 8)).take 100))
      ∧ (bytesC3.drop (21 + 8)).take 100 = [7, 8, 9] :=
  ⟨c3_oversized_chunk_truncates jdecConst bytesC3 32 5 21 (some emptyDoc) none 100
      (by decide) (by decide) (by decide) (by decide) (by decide),
   by decide⟩

/-- C9.  The chunk loop keeps the last chunk of each type: whenever the loop
returns successfully, its JSON state is the decode of the final JSON-tagged
chunk in the visited chunk sequence (or the initial state when there is
none), and its BIN state is the payload of the final BIN-tagged chunk; and
the parser never emits any warning other than the length mismatch, so the
discarded earlier chunks produce neither an error nor a warning. -/
theorem c9_last_chunk_wins :
    (∀ (jdec : List ℕ → Option Doc) (bytes : List ℕ) (L fuel offset : ℕ)
        (j0 : Option Doc) (b0 : Option (List ℕ)) (chunks : List (ℕ × List ℕ))
        (res : Option Doc × Option (List ℕ)),
      chunkSeq bytes L fuel offset = some chunks →
      chunkGo jdec bytes L fuel offset j0 b0 = .ok res →
      res.1 = (lastOfType jsonChunkTag chunks).elim j0 jdec
        ∧ res.2 = (lastOfType binChunkTag chunks).elim b0 some)
    ∧ (∀ (jdec : List ℕ → Option Doc) (bytes : List ℕ),
      (parse jdec bytes).1 = [] ∨ (parse jdec bytes).1 = [.lengthMismatch]) := by
  constructor
  · intro jdec bytes L fuel
    induction fuel with
    | zero =>
      intro offset j0 b0 chunks res hseq hgo
      simp only [chunkSeq] at hseq
      simp only [chunkGo] at hgo
      obtain rfl : chunks = [] := by simpa using hseq.symm
      obtain rfl : res = (j0, b0) := by simpa using hgo.symm
      simp [lastOfType]
    | succ f ih =>
      intro offset j0 b0 chunks res hseq hgo
      by_cases ho : offset < L
      · simp only [chunkSeq, if_pos ho] at hseq
        simp only [chunkGo, if_pos ho] at hgo
        rcases h1 : getUint32 bytes offset with _ | cl
        · rw [h1] at hseq
          simp at hseq
        rcases h2 : getUint32 bytes (offset + 4) with _ | ct
        · rw [h1, h2] at hseq
          simp at hseq
        rw [h1, h2] at hseq hgo
        dsimp only at hseq hgo
        rcases hrec : chunkSeq bytes L f (offset + 8 + cl) with _ | rest
        · rw [hrec] at hseq
          simp at hseq
        rw [hrec] at hseq
        obtain rfl : (ct, (bytes.drop (offset + 8)).take cl) :: rest = chunks := by
          simpa using hseq
        have hrest : chunkSeq bytes L f (offset + 8 + cl) = some rest := hrec
        by_cases hj : ct = jsonChunkTag
        · subst hj
          rw [if_pos rfl] at hgo
          rcases hd : jdec ((bytes.drop (offset + 8)).take cl) with _ | d
          · rw [hd] at hgo
            exact absurd hgo (by simp)
          · rw [hd] at hgo
            obtain ⟨ihj, ihb⟩ := ih (offset + 8 + cl) (some d) b0 rest res hrest hgo
            constructor
            · simp only [lastOfType]
              rcases hlast : lastOfType jsonChunkTag rest with _ | p
              · rw [hlast] at ihj
                simp only [Option.elim] at ihj ⊢
                simp [ihj, hd]
              · rw [hlast] at ihj
                simpa using ihj
            · simp only [lastOfType]
              rcases hlast : lastOfType binChunkTag rest with _ | p
              · rw [hlast] at ihb
                simp only [Option.elim] at ihb ⊢
                simp [ihb, jsonChunkTag, binChunkTag]
              · rw [hlast] at ihb
                simpa using ihb
        · rw [if_neg hj] at hgo
          by_cases hb : ct = binChunkTag
          · subst hb
            rw [if_pos rfl] at hgo
            obtain ⟨ihj, ihb⟩ := ih (offset + 8 + cl) j0
              (some ((bytes.drop (offset + 8)).take cl)) rest res hrest hgo
            constructor
            · simp only [lastOfType]
              rcases hlast : lastOfType jsonChunkTag rest with _ | p
              · rw [hlast] at ihj
                simp only [Option.elim] at ihj ⊢
                simp [ihj, jsonChunkTag, binChunkTag]
              · rw [hlast] at ihj
                simpa using ihj
            · simp only [lastOfType]
              rcases hlast : lastOfType binChunkTag rest with _ | p
              · rw [hlast] at ihb
                simp only [Option.elim] at ihb ⊢
                simp [ihb]
              · rw [hlast] at ihb
                simpa using ihb
          · rw [if_neg hb] at hgo
            obtain ⟨ihj, ihb⟩ := ih (offset + 8 + cl) j0 b0 rest res hrest hgo
            constructor
            · simp only [lastOfType]
              rcases hlast : lastOfType jsonChunkTag rest with _ | p
              · rw [hlast] at ihj
                simp only [Option.elim] at ihj ⊢
                simp [ihj, hj]
              · rw [hlast] at ihj
                simpa using ihj
            · simp only [lastOfType]
              rcases hlast : lastOfType binChunkTag rest with _ | p
              · rw [hlast] at ihb
                simp only [Option.elim] at ihb ⊢
                simp [ihb, hb]
              · rw [hlast] at ihb
                simpa using ihb
      · simp only [chunkSeq, if_neg ho] at hseq
        simp only [chunkGo, if_neg ho] at hgo
        obtain rfl : chunks = [] := by simpa using hseq.symm
        obtain rfl : res = (j0, b0) := by simpa using hgo.symm
        simp [lastOfType]
  · intro jdec bytes
    rcases h0 : getUint32 bytes 0 with _ | magic <;>
      rcases h4 : getUint32 bytes 4 with _ | version <;>
        rcases h8 : getUint32 bytes 8 with _ | L <;>
          simp only [parse, h0, h4, h8] <;>
            first
            | (split_ifs <;> simp)
            | simp

/-- Metadata decoder for the C9 witness, recording the first payload byte in
the scene field so different chunks decode to different documents. -/
def jdecC9 : List ℕ → Option Doc := fun b => some { emptyDoc with scene := b.head? }

/-- Container with two JSON chunks (payloads 1 and 2) followed by two BIN
chunks (payloads 3 and 4, 5), declared length 49 equal to the actual size. -/
def bytesC9 : List ℕ :=
  [103, 108, 84, 70, 2, 0, 0, 0, 49, 0, 0, 0,
   1, 0, 0, 0, 74, 83, 79, 78, 1,
   1, 0, 0, 0, 74, 83, 79, 78, 2,
   1, 0, 0, 0, 66, 73, 78, 0, 3,
   2, 0, 0, 0, 66, 73, 78, 0, 4, 5]

/-- Chunk sequence of the C9 container. -/
def chunksC9 : List (ℕ × List ℕ) :=
  [(jsonChunkTag, [1]), (jsonChunkTag, [2]), (binChunkTag, [3]), (binChunkTag, [4, 5])]

/-- C9 witness: on the duplicate-chunk container the loop result is exactly
the decode of the last JSON chunk and the payload of the last BIN chunk. -/
theorem c9_witness :
    ((some { emptyDoc with scene := some 2 } : Option Doc),
        (some [4, 5] : Option (List ℕ))).1
      = (lastOfType jsonChunkTag chunksC9).elim none jdecC9
    ∧ ((some { emptyDoc with scene := some 2 } : Option Doc),
        (some [4, 5] : Option (List ℕ))).2
      = (lastOfType binChunkTag chunksC9).elim none some :=
  c9_last_chunk_wins.1 jdecC9 bytesC9 49 50 12 none none chunksC9
    (some { emptyDoc with scene := some 2 }, some [4, 5]) (by decide) (by decide)

/-- Bitwise or of a shifted value with a value fitting below the shift is
plain addition. -/
lemma lor_two_pow_mul_add (k a y : ℕ) (hy : y < 2 ^ k) :
    Nat.lor (2 ^ k * a) y = 2 ^ k * a + y := by
  have hposk : 0 < (2 : ℕ) ^ k := Nat.pos_pow_of_pos k (by norm_num)
  apply Nat.eq_of_testBit_eq
  intro i
  show (2 ^ k * a ||| y).testBit i = (2 ^ k * a + y).testBit i
  rw [Nat.testBit_lor]
  rcases Nat.lt_or_ge i k with hik | hik
  · have hx : (2 ^ k * a).testBit i = false := by
      rw [mul_comm, ← Nat.shiftLeft_eq, Nat.testBit_shiftLeft]
      simp [Nat.not_le.mpr hik]
    rw [hx, Bool.false_or]
    rw [Nat.testBit_to_div_mod, Nat.testBit_to_div_mod]
    have hpos : 0 < (2 : ℕ) ^ i := Nat.pos_pow_of_pos i (by norm_num)
    have hk : 2 ^ k * a = 2 ^ (k - i) * a * 2 ^ i := by
      rw [mul_comm (2 ^ (k - i)) a, mul_assoc, ← pow_add, mul_comm a]
      congr 2
      omega
    have hdiv : (2 ^ k * a + y) / 2 ^ i = y / 2 ^ i + 2 ^ (k - i) * a := by
      rw [hk, add_comm, Nat.add_mul_div_right _ _ hpos]
    rw [hdiv]
    have hsplit : 2 ^ (k - i) * a = 2 * (2 ^ (k - i - 1) * a) := by
      rw [← mul_assoc]
      congr 1
      rw [← pow_succ']
      congr 1
      omega
    rw [hsplit, Nat.add_mul_mod_self_left]
  · have hy2 : y.testBit i = false := by
      apply Nat.testBit_lt_two_pow
      calc y < 2 ^ k := hy
        _ ≤ 2 ^ i := Nat.pow_le_pow_right (by norm_num) hik
    rw [hy2, Bool.or_false]
    rw [Nat.testBit_to_div_mod, Nat.testBit_to_div_mod]
    have hi : (2 : ℕ) ^ i = 2 ^ k * 2 ^ (i - k) := by
      rw [← pow_add]
      congr 1
      omega
    have h1 : (2 ^ k * a + y) / 2 ^ k = a := by
      rw [add_comm, mul_comm, Nat.add_mul_div_right _ _ hposk, Nat.div_eq_of_lt hy, zero_add]
    have h2 : 2 ^ k * a / 2 ^ k = a := by
      rw [mul_comm, Nat.mul_div_cancel _ hposk]
    rw [hi, ← Nat.div_div_eq_div_mul, ← Nat.div_div_eq_div_mul, h1, h2]

/-- Unsigned 32-bit reading of a small natural cast to the integers. -/
lemma u32_natCast (m : ℕ) (h : m < 4294967296) : u32 (m : ℤ) = m := by
  show (((m : ℤ)) % 4294967296).toNat = m
  omega

/-- C10 amended.  During the bitwise packing of a color factor each channel
contributes toInt32 of 255 times the channel (truncation toward zero): for
channels in byte range the packed value decomposes additively with weights
65536, 256 and 1; a numeric factor 0.5 contributes 127, the floor of 127.5; a
nonnegative numeric factor contributes the floor of its value times 255; a
missing channel contributes 0; a channel whose JavaScript numeric coercion is
NaN contributes 0; and a falsy channel contributes 0.  (The original claim
said every non-numeric channel contributes 0; a truthy non-number whose
coercion is a number, such as the string 2 or the boolean true, instead
contributes its coerced value times 255.) -/
theorem c10_amended :
    (∀ c0 c1 c2 : Option JChan,
      0 ≤ chanI32 c0 → chanI32 c0 < 256 →
      0 ≤ chanI32 c1 → chanI32 c1 < 256 →
      0 ≤ chanI32 c2 → chanI32 c2 < 256 →
      packColor c0 c1 c2 = 65536 * chanI32 c0 + 256 * chanI32 c1 + chanI32 c2)
    ∧ chanI32 (some (.num (1 / 2))) = 127
    ∧ (∀ q : ℚ, 0 ≤ q → q * 255 < 2147483648 → chanI32 (some (.num q)) = ⌊q * 255⌋)
    ∧ chanI32 none = 0
    ∧ (∀ t n, chanI32 (some (.other none t n)) = 0)
    ∧ (∀ x n, chanI32 (some (.other x false n)) = 0) := by
  have hzero : ∀ z : Option ℚ, z = some 0 → toInt32q z = 0 := by
    intro z hz
    subst hz
    show i32 (ratTrunc 0) = 0
    have h0 : ratTrunc 0 = 0 := by
      show (if (0 : ℚ) ≤ 0 then ⌊(0 : ℚ)⌋ else ⌈(0 : ℚ)⌉) = 0
      rw [if_pos le_rfl]
      simp
    rw [h0]
    decide
  refine ⟨?_, ?_, chanI32_num, ?_, ?_, ?_⟩
  · intro c0 c1 c2 ha0 ha1 hb0 hb1 hc0 hc1
    obtain ⟨na, hna⟩ : ∃ m : ℕ, chanI32 c0 = (m : ℤ) := ⟨(chanI32 c0).toNat, by omega⟩
    obtain ⟨nb, hnb⟩ : ∃ m : ℕ, chanI32 c1 = (m : ℤ) := ⟨(chanI32 c1).toNat, by omega⟩
    obtain ⟨nc, hnc⟩ : ∃ m : ℕ, chanI32 c2 = (m : ℤ) := ⟨(chanI32 c2).toNat, by omega⟩
    have hna' : na < 256 := by omega
    have hnb' : nb < 256 := by omega
    have hnc' : nc < 256 := by omega
    rw [packColor_eval c0 c1 c2 _ _ _ hna hnb hnc, hna, hnb, hnc]
    have e1 : i32 ((na : ℤ) * 65536) = ((na * 65536 : ℕ) : ℤ) := by
      rw [i32_of_range ((na : ℤ) * 65536) (by omega) (by omega)]
      push_cast
      ring
    have e2 : i32 ((nb : ℤ) * 256) = ((nb * 256 : ℕ) : ℤ) := by
      rw [i32_of_range ((nb : ℤ) * 256) (by omega) (by omega)]
      push_cast
      ring
    rw [e1, e2]
    have hlor1 : Nat.lor (na * 65536) (nb * 256) = na * 65536 + nb * 256 := by
      rw [show na * 65536 = 2 ^ 16 * na by ring]
      rw [lor_two_pow_mul_add 16 na (nb * 256) (by omega)]
    have e3 : jsOr ((na * 65536 : ℕ) : ℤ) ((nb * 256 : ℕ) : ℤ)
        = ((na * 65536 + nb * 256 : ℕ) : ℤ) := by
      show i32 ((Nat.lor (u32 ((na * 65536 : ℕ) : ℤ)) (u32 ((nb * 256 : ℕ) : ℤ)) : ℕ) : ℤ) = _
      rw [u32_natCast _ (by omega), u32_natCast _ (by omega), hlor1]
      rw [i32_of_range ((na * 65536 + nb * 256 : ℕ) : ℤ) (by push_cast; omega) (by push_cast; omega)]
    rw [e3]
    have hlor2 : Nat.lor (na * 65536 + nb * 256) nc
        = na * 65536 + nb * 256 + nc := by
      rw [show na * 65536 + nb * 256 = 2 ^ 8 * (na * 256 + nb) by ring]
      rw [lor_two_pow_mul_add 8 (na * 256 + nb) nc (by omega)]
    have e4 : jsOr ((na * 65536 + nb * 256 : ℕ) : ℤ) ((nc : ℕ) : ℤ)
        = ((na * 65536 + nb * 256 + nc : ℕ) : ℤ) := by
      show i32 ((Nat.lor (u32 ((na * 65536 + nb * 256 : ℕ) : ℤ)) (u32 ((nc : ℕ) : ℤ)) : ℕ) : ℤ) = _
      rw [u32_natCast _ (by omega), u32_natCast _ (by omega), hlor2]
      rw [i32_of_range ((na * 65536 + nb * 256 + nc : ℕ) : ℤ) (by push_cast; omega) (by push_cast; omega)]
    rw [e4]
    push_cast
    ring
  · rw [chanI32_num (1 / 2) (by norm_num) (by norm_num)]
    norm_num
  · exact hzero _ rfl
  · intro t n
    cases t
    · exact hzero _ rfl
    · rfl
  · intro x n
    exact hzero _ rfl

/-- Base color application always stores the packed factor as the color. -/
lemma applyBaseColor_color (f : List JChan) (o : MatOptions) :
    (applyBaseColor (some f) o).color = packColor f[0]? f[1]? f[2]? := by
  rcases h : alphaOf f[3]? with _ | a <;> simp only [applyBaseColor, h]

/-- Channel list with the JSON string 2 (a truthy non-number coercing to 2)
as the red channel. -/
def chansC10 : List JChan := [.other (some 2) true false, .num 0, .num 0]

def pbrC10 : Pbr := ⟨some chansC10, none, none, none⟩

/-- Material carrying the non-numeric red channel. -/
def mdefC10 : MaterialDef := ⟨some pbrC10, none, false, none⟩

/-- C10 counterexample.  The red channel holds a non-numeric JSON value (the
string 2); the claim says a non-numeric channel contributes 0, which would
make the packed color 0, but the code coerces the string and packs 510 shl
16, that is 33423360. -/
theorem c10_counterexample :
    (resolveMaterial [] [mdefC10] (some 0)).color = 33423360
      ∧ (33423360 : ℤ) ≠ 0 := by
  constructor
  · have h1 : (resolveMaterial [] [mdefC10] (some 0)).color
        = (applyPbr (some pbrC10) [] defaultMat).color := by
      show (applyAlphaMode mdefC10.alphaMode
        (applyDoubleSided mdefC10.doubleSided
          (applyEmissive mdefC10.emissiveFactor
            (applyPbr mdefC10.pbrMetallicRoughness [] defaultMat)))).color = _
      rw [applyAlphaMode_keeps_color, (applyDoubleSided_keeps _ _).1,
        (applyEmissive_keeps _ _).1]
      rfl
    have h2 : (applyPbr (some pbrC10) [] defaultMat).color
        = packColor (some (.other (some 2) true false)) (some (.num 0)) (some (.num 0)) := by
      rw [(applyPbr_factors pbrC10 [] defaultMat).1]
      have hbct : applyBaseColorTexture pbrC10.baseColorTexture []
          (applyBaseColor (some chansC10) defaultMat)
          = applyBaseColor (some chansC10) defaultMat := rfl
      show (applyBaseColorTexture pbrC10.baseColorTexture []
        (applyBaseColor (some chansC10) defaultMat)).color = _
      rw [hbct, applyBaseColor_color]
      rfl
    have hc0 : chanI32 (some (.other (some 2) true false)) = 510 := by
      show toInt32q (if true then (some (2 : ℚ)).map (fun q => q * 255) else some 0) = 510
      have h2 : (if true then (some (2 : ℚ)).map (fun q => q * 255) else some 0)
          = some ((2 : ℚ) * 255) := rfl
      rw [h2, show (2 : ℚ) * 255 = 510 by norm_num]
      show i32 (ratTrunc 510) = 510
      have h3 : ratTrunc (510 : ℚ) = 510 := by
        show (if (0 : ℚ) ≤ 510 then ⌊(510 : ℚ)⌋ else ⌈(510 : ℚ)⌉) = 510
        rw [if_pos (by norm_num)]
        norm_num
      rw [h3]
      decide
    have hb : chanI32 (some (.num 0)) = 0 := by
      rw [chanI32_num 0 le_rfl (by norm_num)]
      norm_num
    rw [h1, h2, packColor_eval _ _ _ 510 0 0 hc0 hb hb]
    decide
  · decide

/-- C10 witness: the additive packing applied at a missing channel, another
missing channel, and a NaN-coercing channel. -/
theorem c10_witness :
    packColor none none (some (.other none true false))
      = 65536 * chanI32 none + 256 * chanI32 none + chanI32 (some (.other none true false)) :=
  c10_amended.1 none none (some (.other none true false))
    (by rw [c10_amended.2.2.2.1]) (by rw [c10_amended.2.2.2.1]; norm_num)
    (by rw [c10_amended.2.2.2.1]) (by rw [c10_amended.2.2.2.1]; norm_num)
    (by rw [c10_amended.2.2.2.2.1]) (by rw [c10_amended.2.2.2.2.1]; norm_num)

/-- Length preservation of the throwing map. -/
lemma mapExcept_ok_length (f : α → Except JsErr β) :
    ∀ (l : List α) (res : List β), mapExcept f l = .ok res → res.length = l.length := by
  intro l
  induction l with
  | nil =>
    intro res h
    simp only [mapExcept] at h
    obtain rfl : ([] : List β) = res := by simpa using h
    rfl
  | cons a rest ih =>
    intro res h
    simp only [mapExcept] at h
    rcases hf : f a with e | b
    · rw [hf] at h
      exact absurd h (by simp)
    rw [hf] at h
    rcases hrec : mapExcept f rest with e2 | bs
    · rw [hrec] at h
      exact absurd h (by simp [Except.map])
    rw [hrec] at h
    simp only [Except.map] at h
    obtain rfl : b :: bs = res := by simpa using h
    simp [ih bs hrec]

/-- C1 amended.  Out-of-range child indices and out-of-range scene node
indices are silently dropped, not errors: whenever scene assembly succeeds,
the root children are exactly the in-range scene node indices and each node
keeps exactly its in-range child indices; no dangling-reference failure
exists on this path. -/
theorem c1_amended (f32 : ℕ → ℕ → ℕ → ℕ → ℚ) (url : Option String) (doc : Doc)
    (bin : Option (List ℕ)) (w : List Warning) (out : SceneOut)
    (h : buildScene f32 url doc bin = (w, .ok out)) :
    out.rootChildren = (match doc.scenes[doc.scene.getD 0]? with
        | none => []
        | some sd => sd.nodes.filter (fun i => i < doc.nodes.length))
      ∧ out.childLinks = doc.nodes.map (fun n => n.children.filter (fun c => c < doc.nodes.length))
      ∧ out.nodes.length = doc.nodes.length := by
  unfold buildScene at h
  rcases h1 : buildBuffers doc bin with e | buffers
  · rw [h1] at h
    exact absurd h (by simp)
  rw [h1] at h
  dsimp only at h
  rcases h2 : buildAccessors f32 doc buffers with e | accessors
  · rw [h2] at h
    exact absurd h (by simp)
  rw [h2] at h
  dsimp only at h
  rcases h3 : buildImages doc bin url with e | images
  · rw [h3] at h
    exact absurd h (by simp)
  rw [h3] at h
  dsimp only at h
  rcases h4 : buildMeshes (buildTextures doc images) doc.materials accessors doc.meshes
    with ⟨w1, r1⟩
  rcases r1 with e | meshes
  · rw [h4] at h
    exact absurd h (by simp)
  rw [h4] at h
  dsimp only at h
  rcases h5 : mapExcept (buildNode meshes) doc.nodes with e | nodes
  · rw [h5] at h
    exact absurd h (by simp)
  rw [h5] at h
  dsimp only at h
  have hlen : nodes.length = doc.nodes.length := mapExcept_ok_length _ _ _ h5
  injection h with hw hok
  injection hok with hout
  subst hout
  refine ⟨?_, ?_, ?_⟩
  · show (match doc.scenes[doc.scene.getD 0]? with
      | none => []
      | some sd => sd.nodes.filter (fun i => i < nodes.length)) = _
    simp only [hlen]
  · show doc.nodes.map (fun n => n.children.filter (fun c => c < nodes.length)) = _
    simp only [hlen]
  · exact hlen

/-- Node output of the C1 counterexample document. -/
def nodeOutC1 : NodeOut :=
  ⟨"node", none, [some 0, some 0, some 0], [some 1, some 1, some 1],
    [some 0, some 0, some 0, some 1]⟩

/-- Document with one node whose scene references the out-of-range node
index 5. -/
def docC1 : Doc :=
  ⟨[], [], [], [], [], [], [], [⟨none, none, [], none, none, none⟩], [⟨[5]⟩], none⟩

/-- Decoder mapping the single-byte JSON chunk of the C1 container to the
C1 document. -/
def jdecC1 : List ℕ → Option Doc := fun b => if b = [9] then some docC1 else none

/-- Container carrying exactly the C1 document as its JSON chunk. -/
def bytesC1 : List ℕ :=
  [103, 108, 84, 70, 2, 0, 0, 0, 21, 0, 0, 0, 1, 0, 0, 0, 74, 83, 79, 78, 9]

/-- C1 counterexample.  The scene descriptor references node index 5 while
only one node exists; decode does not fail with a dangling-reference error:
it succeeds and silently returns a scene whose root has no children. -/
theorem c1_counterexample :
    decodeGLB jdecC1 f32zero none bytesC1
        = ([], .ok ⟨⟨"GLBScene", [nodeOutC1], [[]], []⟩, docC1⟩)
      ∧ docC1.scenes = [⟨[5]⟩] ∧ docC1.nodes.length = 1 := by
  decide

/-- C1 witness: the amended statement applied to the concrete document with
the out-of-range scene reference. -/
theorem c1_witness :
    (⟨"GLBScene", [nodeOutC1], [[]], []⟩ : SceneOut).rootChildren
        = (match docC1.scenes[docC1.scene.getD 0]? with
            | none => []
            | some sd => sd.nodes.filter (fun i => i < docC1.nodes.length))
      ∧ (⟨"GLBScene", [nodeOutC1], [[]], []⟩ : SceneOut).childLinks
        = docC1.nodes.map (fun n => n.children.filter (fun c => c < docC1.nodes.length))
      ∧ (⟨"GLBScene", [nodeOutC1], [[]], []⟩ : SceneOut).nodes.length = docC1.nodes.length :=
  c1_amended f32zero none docC1 none [] ⟨"GLBScene", [nodeOutC1], [[]], []⟩ (by decide)

end GLTF
